import Mathlib

/-!
Verification of the PennyLane–qulacs device adapter
(`pennylane_qulacs/qulacs_device.py`).

The adapter holds a live qulacs `QuantumState` (`_state`) and a
`QuantumCircuit` (`_circuit`), translates PennyLane operation and observable
names into qulacs gate constructors, and computes expectation values by the
"apply the observable as a dense gate, then take an inner product with the
saved bra copy" protocol.

Modelling choices:
* Scalars are elements of the computable ring ℚ[√2, i] (`KC` below): four
  rational coordinates `a + b·√2 + (c + d·√2)·i`.  √2 is needed because the
  adapter's `H_matrix` constant is `[[1,1],[1,-1]]/√2`; everything the claims
  evaluate stays inside this ring.  Floating-point rounding is out of scope.
* The engine (`qulacs`) is external to the repository; it is modelled by its
  documented semantics: a `QuantumState` is an amplitude vector of length
  `2^wires` indexed with qubit `k` on bit `k` of the index (qulacs is
  little-endian), initialised to the computational ground state; a
  `QuantumCircuit` is the ordered list of added gates, and
  `update_quantum_state` applies them in insertion order;
  `inner_product bra ket = Σ conj(bra i) * ket i`.
* Amplitude vectors are total functions `Nat → KC`; only indices below
  `2^num_wires` are meaningful.
* Rotation gates need `cos`/`sin`, which do not live in ℚ[√2, i]; gate
  application is parametrised by a `Trig` model supplying them.  No claim
  depends on the numeric value of a rotation matrix.
* `np.allclose` (used by the `hermitian` validator) is a floating-point
  tolerance predicate; it is abstracted as a Boolean parameter `close`.
* Python methods that mutate `self` become functions returning the new
  device.  `apply` raises before any mutation on its error paths, so it is
  modelled as returning `(Option Err) × QulacsDevice` with the device
  unchanged when the error is `some`; `expval` returns
  `Except Err (KC × QulacsDevice)`.
-/

set_option autoImplicit false

namespace QulacsSpec

/-- An element `a + b·√2 + (c + d·√2)·i` of ℚ[√2, i], with exact rational
coordinates.  This is the scalar ring of the model. -/
structure KC where
  a : ℚ
  b : ℚ
  c : ℚ
  d : ℚ
  deriving DecidableEq, Repr

namespace KC

def zero : KC := ⟨0, 0, 0, 0⟩

def one : KC := ⟨1, 0, 0, 0⟩

/-- The imaginary unit `i`. -/
def iu : KC := ⟨0, 0, 1, 0⟩

/-- `1/√2 = √2/2`, the scale factor of the Hadamard matrix. -/
def invSqrt2 : KC := ⟨0, 1/2, 0, 0⟩

def add (x y : KC) : KC := ⟨x.a + y.a, x.b + y.b, x.c + y.c, x.d + y.d⟩

def neg (x : KC) : KC := ⟨-x.a, -x.b, -x.c, -x.d⟩

/-- Multiplication in ℚ[√2, i]: expand
`(a + b√2 + (c + d√2)i)(a' + b'√2 + (c' + d'√2)i)` using `√2·√2 = 2` and
`i·i = -1`. -/
def mul (x y : KC) : KC :=
  ⟨x.a * y.a + 2 * x.b * y.b - x.c * y.c - 2 * x.d * y.d,
   x.a * y.b + x.b * y.a - x.c * y.d - x.d * y.c,
   x.a * y.c + 2 * x.b * y.d + x.c * y.a + 2 * x.d * y.b,
   x.a * y.d + x.b * y.c + x.c * y.b + x.d * y.a⟩

/-- Complex conjugation: negate the imaginary coordinates. -/
def conj (x : KC) : KC := ⟨x.a, x.b, -x.c, -x.d⟩

/-- The real component of a scalar (imaginary coordinates zeroed), i.e. the
effect of Python's `.real` on the complex expectation value. -/
def realPart (x : KC) : KC := ⟨x.a, x.b, 0, 0⟩

instance : Zero KC := ⟨zero⟩
instance : One KC := ⟨one⟩
instance : Add KC := ⟨add⟩
instance : Neg KC := ⟨neg⟩
instance : Mul KC := ⟨mul⟩

end KC

/-- Finite sums of scalars, `Σ_{l < n} f l`, as a left fold (kept
fold-based so that concrete instances evaluate by `decide`). -/
def sumK (n : Nat) (f : Nat → KC) : KC :=
  (List.range n).foldl (fun acc l => acc + f l) 0

/-- Matrices are given as lists of rows, exactly like the `np.array`
literals of the source. -/
abbrev Mat := List (List KC)

/-- Entry `(r, c)` of a matrix (out-of-range reads yield `0`; the model
never reads out of range on the paths the claims exercise). -/
def matEntry (m : Mat) (r c : Nat) : KC := (m.getD r []).getD c 0

/-- `X_matrix = [[0, 1], [1, 0]]`. -/
def X_matrix : Mat := [[0, 1], [1, 0]]

/-- `Y_matrix = [[0, -1j], [1j, 0]]`. -/
def Y_matrix : Mat := [[0, KC.neg KC.iu], [KC.iu, 0]]

/-- `Z_matrix = [[1, 0], [0, -1]]`. -/
def Z_matrix : Mat := [[1, 0], [0, KC.neg 1]]

/-- `H_matrix = [[1, 1], [1, -1]] / sqrt(2)`. -/
def H_matrix : Mat :=
  [[KC.invSqrt2, KC.invSqrt2], [KC.invSqrt2, KC.neg KC.invSqrt2]]

/-- Rows of a matrix, then conjugate each entry and transpose:
`A.conj().T`. -/
def conjTranspose (m : Mat) : Mat :=
  (List.range (m.headD []).length).map fun j => m.map fun row => KC.conj (row.getD j 0)

/-! ### Bit manipulation on amplitude indices

qulacs indexes amplitudes with qubit `k` on bit `k` (little-endian). -/

/-- Bit `k` of `i` (value `0` or `1`). -/
def bitAt (i k : Nat) : Nat := i / 2 ^ k % 2

/-- `i` with bit `w` replaced by `v` (`v` is `0` or `1`). -/
def setBitTo (i w v : Nat) : Nat :=
  i % 2 ^ w + v * 2 ^ w + i / 2 ^ (w + 1) * 2 ^ (w + 1)

/-- The local (sub-register) index of `i` on the wire list `ws`: the first
listed wire is the least significant local bit, following qulacs's
`DenseMatrix` target-list convention. -/
def localIdx (ws : List Nat) (i : Nat) : Nat :=
  ws.enum.foldl (fun acc jw => acc + bitAt i jw.2 * 2 ^ jw.1) 0

/-- `i` with the bits at positions `ws` overwritten by the bits of the local
index `l`. -/
def setLocal (ws : List Nat) (i l : Nat) : Nat :=
  ws.enum.foldl (fun acc jw => setBitTo acc jw.2 (bitAt l jw.1)) i

/-! ### Engine gate semantics -/

/-- Apply a 2×2 matrix `m` on wire `w` of the amplitude vector `v`:
`v' i = Σ_{b} m[bit w of i][b] * v (i with bit w := b)`. -/
def applySingle (m : Mat) (w : Nat) (v : Nat → KC) : Nat → KC :=
  fun i =>
    matEntry m (bitAt i w) 0 * v (setBitTo i w 0) +
      matEntry m (bitAt i w) 1 * v (setBitTo i w 1)

/-- CNOT on control `c` and target `t`: when the control bit of `i` is set,
the amplitude is read from the index with the target bit toggled. -/
def applyCnot (c t : Nat) (v : Nat → KC) : Nat → KC :=
  fun i => if bitAt i c = 1 then v (setBitTo i t (1 - bitAt i t)) else v i

/-- Dense multi-qubit gate on the wire list `ws`:
`v' i = Σ_{l < 2^|ws|} A[local i][l] * v (i with local bits := l)`. -/
def applyDense (ws : List Nat) (A : Mat) (v : Nat → KC) : Nat → KC :=
  fun i => sumK (2 ^ ws.length) fun l => matEntry A (localIdx ws i) l * v (setLocal ws i l)

/-- `qulacs.state.inner_product bra ket = Σ_i conj(bra i) * ket i` over the
`2^n` amplitudes. -/
def innerProduct (n : Nat) (bra ket : Nat → KC) : KC :=
  sumK (2 ^ n) fun i => KC.conj (bra i) * ket i

/-- Trigonometric model: `cos` and `sin` of a rational angle, valued in the
scalar ring.  Rotation-gate matrices are stated relative to an arbitrary
such model; no claim constrains their numeric values. -/
structure Trig where
  cos : ℚ → KC
  sin : ℚ → KC

/-- `e^{iθ}` in a trigonometric model. -/
def Trig.expI (t : Trig) (θ : ℚ) : KC := t.cos θ + KC.iu * t.sin θ

/-- A degenerate trigonometric model used for concrete instantiations where
no rotation gate occurs. -/
def trivTrig : Trig := ⟨fun _ => 1, fun _ => 0⟩

/-- The gate constructors the adapter queues: `CNOT`, `U3`, `RX`, `RY`,
`RZ`, `X`, `Y`, `Z` and `DenseMatrix` from `qulacs.gate`. -/
inductive Gate where
  | cnot (control target : Nat)
  | u3 (wire : Nat) (theta phi lam : ℚ)
  | rx (wire : Nat) (angle : ℚ)
  | ry (wire : Nat) (angle : ℚ)
  | rz (wire : Nat) (angle : ℚ)
  | x (wire : Nat)
  | y (wire : Nat)
  | z (wire : Nat)
  | dense (wires : List Nat) (mat : Mat)
  deriving DecidableEq, Repr

/-- The 2×2 matrix of `RX θ = exp(iθX/2)` (qulacs sign convention). -/
def rxMat (t : Trig) (θ : ℚ) : Mat :=
  [[t.cos (θ/2), KC.iu * t.sin (θ/2)], [KC.iu * t.sin (θ/2), t.cos (θ/2)]]

/-- The 2×2 matrix of `RY θ = exp(iθY/2)` (qulacs sign convention). -/
def ryMat (t : Trig) (θ : ℚ) : Mat :=
  [[t.cos (θ/2), t.sin (θ/2)], [KC.neg (t.sin (θ/2)), t.cos (θ/2)]]

/-- The 2×2 matrix of `RZ θ` (qulacs sign convention). -/
def rzMat (t : Trig) (θ : ℚ) : Mat :=
  [[t.expI (θ/2), 0], [0, t.expI (-(θ/2))]]

/-- The 2×2 matrix of the generic single-qubit unitary `U3 θ φ λ`. -/
def u3Mat (t : Trig) (θ φ lam : ℚ) : Mat :=
  [[t.cos (θ/2), KC.neg (t.expI lam * t.sin (θ/2))],
   [t.expI φ * t.sin (θ/2), t.expI (φ + lam) * t.cos (θ/2)]]

/-- Semantics of one queued gate on an amplitude vector. -/
def Gate.applyTo (t : Trig) : Gate → (Nat → KC) → Nat → KC
  | .cnot c tg => applyCnot c tg
  | .u3 w θ φ lam => applySingle (u3Mat t θ φ lam) w
  | .rx w θ => applySingle (rxMat t θ) w
  | .ry w θ => applySingle (ryMat t θ) w
  | .rz w θ => applySingle (rzMat t θ) w
  | .x w => applySingle X_matrix w
  | .y w => applySingle Y_matrix w
  | .z w => applySingle Z_matrix w
  | .dense ws A => applyDense ws A

/-- `QuantumCircuit.update_quantum_state`: apply the queued gates in
insertion order. -/
def applyGates (t : Trig) (gs : List Gate) (v : Nat → KC) : Nat → KC :=
  gs.foldl (fun s g => g.applyTo t s) v

/-! ### The adapter -/

/-- A Python value appearing in a `par` list: a numeric angle, a state
vector, or a matrix. -/
inductive PyVal where
  | num (q : ℚ)
  | vec (v : List KC)
  | mat (m : Mat)
  deriving DecidableEq, Repr

/-- Exceptions the adapter can raise.  `valueError` models Python's
`ValueError` with its message; `keyError` models the raw dictionary-lookup
`KeyError` of `_observable_map[operation]`; `badCall` stands for the
Python-level `TypeError`/`IndexError` produced by calls whose arity or
argument types do not fit the method (no claim exercises these). -/
inductive Err where
  | valueError (msg : String)
  | keyError (key : String)
  | badCall
  deriving DecidableEq, Repr

/-- The adapter: wire count, the live qulacs `QuantumState` (modelled as its
amplitude vector in qulacs index convention) and the accumulating
`QuantumCircuit` (modelled as the list of added gates). -/
structure QulacsDevice where
  num_wires : Nat
  _state : Nat → KC
  _circuit : List Gate

/-- The ground state `|0...0⟩` a fresh `QuantumState` holds. -/
def groundState : Nat → KC := fun i => if i = 0 then 1 else 0

namespace QulacsDevice

/-- `QulacsDevice.__init__`: a zero-initialised state and an empty
circuit. -/
def init (wires : Nat) : QulacsDevice :=
  { num_wires := wires, _state := groundState, _circuit := [] }

/-- The class attribute `observables` (note: no `Hadamard`). -/
def observables : List String := ["PauliX", "PauliY", "PauliZ", "Hermitian"]

/-- The class attribute `operations`. -/
def operations : List String :=
  ["CNOT", "RX", "RY", "RZ", "Rot", "QubitStateVector",
   "PauliX", "PauliY", "PauliZ"]

/-- Append one gate to the circuit (`self._circuit.add_gate(...)`). -/
def addGate (d : QulacsDevice) (g : Gate) : QulacsDevice :=
  { d with _circuit := d._circuit ++ [g] }

/-- The `QubitStateVector` branch of `apply`: check the length of `par[0]`
against `2^len(wires)`, raise `ValueError` on mismatch, otherwise load the
vector straight into the state (`self._state.load(par[0])`) and return. -/
def loadStateVector (d : QulacsDevice) (wires : List Nat)
    (par : List PyVal) : Option Err × QulacsDevice :=
  match par with
  | PyVal.vec v :: _ =>
    if v.length ≠ 2 ^ wires.length then
      (some (Err.valueError "State vector must be of length 2**wires."), d)
    else
      (none, { d with _state := fun i => v.getD i 0 })
  | _ => (some Err.badCall, d)

/-- The `CNOT` branch: `CNOT(*wires)` unpacks exactly two wires. -/
def queueCNOT (d : QulacsDevice) (wires : List Nat) : Option Err × QulacsDevice :=
  match wires with
  | [c, t] => (none, d.addGate (Gate.cnot c t))
  | _ => (some Err.badCall, d)

/-- The `Rot` branch: `U3(wires[0], *par)` with exactly three angles. -/
def queueRot (d : QulacsDevice) (wires : List Nat)
    (par : List PyVal) : Option Err × QulacsDevice :=
  match wires, par with
  | w :: _, [PyVal.num θ, PyVal.num φ, PyVal.num lam] =>
    (none, d.addGate (Gate.u3 w θ φ lam))
  | _, _ => (some Err.badCall, d)

/-- The `RX` branch: `RX(wires[0], par[0])`. -/
def queueRX (d : QulacsDevice) (wires : List Nat)
    (par : List PyVal) : Option Err × QulacsDevice :=
  match wires, par with
  | w :: _, PyVal.num θ :: _ => (none, d.addGate (Gate.rx w θ))
  | _, _ => (some Err.badCall, d)

/-- The `RY` branch: `RY(wires[0], par[0])`. -/
def queueRY (d : QulacsDevice) (wires : List Nat)
    (par : List PyVal) : Option Err × QulacsDevice :=
  match wires, par with
  | w :: _, PyVal.num θ :: _ => (none, d.addGate (Gate.ry w θ))
  | _, _ => (some Err.badCall, d)

/-- The `RZ` branch: `RZ(wires[0], par[0])`. -/
def queueRZ (d : QulacsDevice) (wires : List Nat)
    (par : List PyVal) : Option Err × QulacsDevice :=
  match wires, par with
  | w :: _, PyVal.num θ :: _ => (none, d.addGate (Gate.rz w θ))
  | _, _ => (some Err.badCall, d)

/-- The `PauliX` branch: `X(wires[0])`. -/
def queuePauliX (d : QulacsDevice) (wires : List Nat) : Option Err × QulacsDevice :=
  match wires with
  | w :: _ => (none, d.addGate (Gate.x w))
  | _ => (some Err.badCall, d)

/-- The `PauliY` branch: `Y(wires[0])`. -/
def queuePauliY (d : QulacsDevice) (wires : List Nat) : Option Err × QulacsDevice :=
  match wires with
  | w :: _ => (none, d.addGate (Gate.y w))
  | _ => (some Err.badCall, d)

/-- The `PauliZ` branch: `Z(wires[0])`. -/
def queuePauliZ (d : QulacsDevice) (wires : List Nat) : Option Err × QulacsDevice :=
  match wires with
  | w :: _ => (none, d.addGate (Gate.z w))
  | _ => (some Err.badCall, d)

/-- `QulacsDevice.apply`: dispatch on the operation name exactly as the
chain of `if`/`elif` in the source, ending in the
`ValueError('Invalid operation ...')` fallback.  The result pairs the
raised exception (if any) with the device after the call; every `raise`
in the source happens before any mutation, so on an error the device is
returned unchanged. -/
def apply (d : QulacsDevice) (op : String) (wires : List Nat)
    (par : List PyVal) : Option Err × QulacsDevice :=
  if op = "QubitStateVector" then loadStateVector d wires par
  else if op = "CNOT" then queueCNOT d wires
  else if op = "Rot" then queueRot d wires par
  else if op = "RX" then queueRX d wires par
  else if op = "RY" then queueRY d wires par
  else if op = "RZ" then queueRZ d wires par
  else if op = "PauliX" then queuePauliX d wires
  else if op = "PauliY" then queuePauliY d wires
  else if op = "PauliZ" then queuePauliZ d wires
  else (some (Err.valueError ("Invalid operation \"" ++ op ++ "\"")), d)

end QulacsDevice

/-! ### The `state` property: `get_vector().reshape([2]*n).T.flatten()`

The vector of length `2^n` is viewed as a rank-`n` tensor of dimension 2
per axis (C order, so axis 0 is the most significant bit), the axis order
is reversed, and the result is flattened in C order. -/

/-- `v.reshape([2]*n)` as a tensor: multi-index `idx` (axis `k` gives bit
`n-1-k` of the flat index). -/
def tensorOf (n : Nat) (v : Nat → KC) : (Nat → Nat) → KC :=
  fun idx => v (∑ k ∈ Finset.range n, idx k * 2 ^ (n - 1 - k))

/-- `.T`: reverse the axis order of a rank-`n` tensor. -/
def tensorTranspose (n : Nat) (t : (Nat → Nat) → KC) : (Nat → Nat) → KC :=
  fun idx => t fun k => idx (n - 1 - k)

/-- `.flatten()`: read the rank-`n` tensor back as a flat vector in C
order. -/
def tensorFlatten (n : Nat) (t : (Nat → Nat) → KC) : Nat → KC :=
  fun i => t fun k => bitAt i (n - 1 - k)

/-- Reversal of the low `n` bits of an index: the permutation that
reconciles qulacs's little-endian qubit order with PennyLane's. -/
def bitRev : Nat → Nat → Nat
  | 0, _ => 0
  | n + 1, i => i % 2 * 2 ^ n + bitRev n (i / 2)

namespace QulacsDevice

/-- The `state` property. -/
def state (d : QulacsDevice) : Nat → KC :=
  tensorFlatten d.num_wires (tensorTranspose d.num_wires (tensorOf d.num_wires d._state))

/-- `pre_measure`: `self._circuit.update_quantum_state(self._state)`.  The
circuit is not cleared. -/
def pre_measure (t : Trig) (d : QulacsDevice) : QulacsDevice :=
  { d with _state := applyGates t d._circuit d._state }

/-- `reset`: fresh zero state and fresh empty circuit, same wire count. -/
def reset (d : QulacsDevice) : QulacsDevice :=
  { num_wires := d.num_wires, _state := groundState, _circuit := [] }

end QulacsDevice

/-! ### Observable resolution -/

/-- `hermitian`: validation of a caller-supplied Hermitian observable.
`close` abstracts `np.allclose` (a floating-point tolerance predicate). -/
def hermitian (close : Mat → Mat → Bool) (args : List PyVal) : Except Err Mat :=
  match args with
  | PyVal.mat A :: _ =>
    if A.length ≠ (A.headD []).length then
      Except.error (Err.valueError "Expectation must be a square matrix.")
    else if ¬ close A (conjTranspose A) then
      Except.error (Err.valueError "Expectation must be Hermitian.")
    else
      Except.ok A
  | _ => Except.error Err.badCall

/-- An entry of `_observable_map`: either a fixed matrix or the `hermitian`
validator callable. -/
inductive ObsEntry where
  | mat (A : Mat)
  | fn
  deriving DecidableEq, Repr

namespace QulacsDevice

/-- The class attribute `_observable_map`. -/
def _observable_map (name : String) : Option ObsEntry :=
  if name = "PauliX" then some (ObsEntry.mat X_matrix)
  else if name = "PauliY" then some (ObsEntry.mat Y_matrix)
  else if name = "PauliZ" then some (ObsEntry.mat Z_matrix)
  else if name = "Hadamard" then some (ObsEntry.mat H_matrix)
  else if name = "Hermitian" then some ObsEntry.fn
  else none

/-- `_get_operator_matrix`: dictionary lookup (raising `KeyError` on a
missing name), returning fixed matrices directly and calling the
`hermitian` validator on `par` otherwise. -/
def _get_operator_matrix (close : Mat → Mat → Bool) (name : String)
    (par : List PyVal) : Except Err Mat :=
  match _observable_map name with
  | none => Except.error (Err.keyError name)
  | some (ObsEntry.mat A) => Except.ok A
  | some ObsEntry.fn => hermitian close par

/-- `expval`: copy the state as the bra, resolve the observable to a
matrix, apply it to the live state as a dense gate (mutating it), and
return the real component of `inner_product bra state` together with the
device after the call. -/
def expval (close : Mat → Mat → Bool) (d : QulacsDevice) (observable : String)
    (wires : List Nat) (par : List PyVal) : Except Err (KC × QulacsDevice) :=
  match _get_operator_matrix close observable par with
  | Except.error e => Except.error e
  | Except.ok A =>
    let st := applyDense wires A d._state
    Except.ok (KC.realPart (innerProduct d.num_wires d._state st),
      { d with _state := st })

end QulacsDevice

/-! ### Concrete instances used for witnesses -/

/-- A trivial `np.allclose` abstraction accepting everything; used only to
instantiate theorems at concrete inputs. -/
def close0 : Mat → Mat → Bool := fun _ _ => true

/-- A one-wire device whose circuit holds a single queued `X` gate. -/
def xQueuedDevice : QulacsDevice :=
  { num_wires := 1, _state := groundState, _circuit := [Gate.x 0] }

/-! ## Helper lemmas -/

theorem KC.zero_def : (0 : KC) = ⟨0, 0, 0, 0⟩ := rfl

theorem KC.one_def : (1 : KC) = ⟨1, 0, 0, 0⟩ := rfl

theorem KC.add_mk (a b c d a' b' c' d' : ℚ) :
    (⟨a, b, c, d⟩ : KC) + ⟨a', b', c', d'⟩ = ⟨a + a', b + b', c + c', d + d'⟩ := rfl

theorem KC.mul_mk (a b c d a' b' c' d' : ℚ) :
    (⟨a, b, c, d⟩ : KC) * ⟨a', b', c', d'⟩ =
      ⟨a * a' + 2 * b * b' - c * c' - 2 * d * d',
       a * b' + b * a' - c * d' - d * c',
       a * c' + 2 * b * d' + c * a' + 2 * d * b',
       a * d' + b * c' + c * b' + d * a'⟩ := rfl

theorem bitAt_zero (i : Nat) : bitAt i 0 = i % 2 := by
  simp [bitAt]

theorem bitAt_succ (i k : Nat) : bitAt i (k + 1) = bitAt (i / 2) k := by
  simp [bitAt, Nat.div_div_eq_div_mul, pow_succ, Nat.mul_comm]

/-- `bitRev` written as the sum the tensor composition produces. -/
theorem bitRev_eq_sum (n : Nat) :
    ∀ i, bitRev n i = ∑ k ∈ Finset.range n, bitAt i k * 2 ^ (n - 1 - k) := by
  induction n with
  | zero => intro i; simp [bitRev]
  | succ n ih =>
    intro i
    rw [Finset.sum_range_succ']
    have h0 : bitAt i 0 * 2 ^ (n + 1 - 1 - 0) = i % 2 * 2 ^ n := by
      have e : n + 1 - 1 - 0 = n := by omega
      rw [bitAt_zero, e]
    have h1 : ∀ k, bitAt i (k + 1) * 2 ^ (n + 1 - 1 - (k + 1)) =
        bitAt (i / 2) k * 2 ^ (n - 1 - k) := by
      intro k
      have e : n + 1 - 1 - (k + 1) = n - 1 - k := by omega
      rw [bitAt_succ, e]
    rw [h0, Finset.sum_congr rfl fun k _ => h1 k, ← ih (i / 2)]
    exact Nat.add_comm _ _

/-- The `state` property reads the engine vector at the bit-reversed
index: `reshape([2]*n).T.flatten()` is exactly the bit-reversal
permutation. -/
theorem state_eq_bitRev (d : QulacsDevice) (i : Nat) :
    d.state i = d._state (bitRev d.num_wires i) := by
  unfold QulacsDevice.state tensorFlatten tensorTranspose tensorOf
  rw [bitRev_eq_sum]
  congr 1
  apply Finset.sum_congr rfl
  intro k hk
  have hk' := Finset.mem_range.mp hk
  have h : d.num_wires - 1 - (d.num_wires - 1 - k) = k := by omega
  show bitAt i (d.num_wires - 1 - (d.num_wires - 1 - k)) * 2 ^ (d.num_wires - 1 - k) =
    bitAt i k * 2 ^ (d.num_wires - 1 - k)
  rw [h]

theorem bitRev_zero (n : Nat) : bitRev n 0 = 0 := by
  induction n with
  | zero => rfl
  | succ n ih => simp [bitRev, ih]

theorem bitRev_eq_zero_iff (n : Nat) (i : Nat) (hi : i < 2 ^ n) :
    bitRev n i = 0 ↔ i = 0 := by
  induction n generalizing i with
  | zero =>
    simp only [pow_zero, Nat.lt_one_iff] at hi
    simp [hi, bitRev]
  | succ n ih =>
    have h2 : 2 ^ (n + 1) = 2 * 2 ^ n := by rw [pow_succ, Nat.mul_comm]
    have hdiv : i / 2 < 2 ^ n := by omega
    have hpow : 0 < 2 ^ n := Nat.pos_pow_of_pos n (by omega)
    constructor
    · intro h
      have hz : i % 2 * 2 ^ n = 0 ∧ bitRev n (i / 2) = 0 := by
        simpa [bitRev] using h
      have hm : i % 2 = 0 := by
        rcases Nat.mul_eq_zero.mp hz.1 with h' | h'
        · exact h'
        · omega
      have hd : i / 2 = 0 := (ih (i / 2) hdiv).mp hz.2
      omega
    · intro h
      subst h
      exact bitRev_zero (n + 1)

/-- Reading `state` from a device holding the engine ground state yields
`[1, 0, ..., 0]`. -/
theorem ground_state_read (d : QulacsDevice) (hd : d._state = groundState)
    (i : Nat) (hi : i < 2 ^ d.num_wires) :
    d.state i = if i = 0 then 1 else 0 := by
  rw [state_eq_bitRev, hd]
  simp only [groundState]
  simp only [bitRev_eq_zero_iff d.num_wires i hi]

/-! ## Claim theorems -/

/-- C1: `expval` on a resolvable observable copies the live state as the
bra, applies the resolved matrix as a dense gate to the live state (the
device comes back with the mutated state), and returns exactly the real
component of the inner product of the saved bra with the mutated state,
discarding the imaginary component. -/
theorem expval_protocol (close : Mat → Mat → Bool) (d : QulacsDevice)
    (observable : String) (wires : List Nat) (par : List PyVal) (A : Mat)
    (h : QulacsDevice._get_operator_matrix close observable par = Except.ok A) :
    QulacsDevice.expval close d observable wires par =
      Except.ok
        (KC.realPart (innerProduct d.num_wires d._state (applyDense wires A d._state)),
         { d with _state := applyDense wires A d._state }) := by
  unfold QulacsDevice.expval
  rw [h]

theorem expval_protocol_witness :
    QulacsDevice._get_operator_matrix close0 "PauliZ" [] = Except.ok Z_matrix ∧
    QulacsDevice.expval close0 (QulacsDevice.init 1) "PauliZ" [0] [] =
      Except.ok
        (KC.realPart (innerProduct (QulacsDevice.init 1).num_wires (QulacsDevice.init 1)._state
            (applyDense [0] Z_matrix (QulacsDevice.init 1)._state)),
         { QulacsDevice.init 1 with
            _state := applyDense [0] Z_matrix (QulacsDevice.init 1)._state }) :=
  ⟨rfl,
   expval_protocol close0 (QulacsDevice.init 1) "PauliZ" [0] [] Z_matrix rfl⟩

/-- C2: `apply` on an operation name that is neither the load directive nor
one of the eight translation-table names raises a `ValueError` whose
message names the offending operation, and the device (gate sequence and
simulation state alike) is returned unchanged. -/
theorem apply_unsupported_raises (d : QulacsDevice) (op : String)
    (wires : List Nat) (par : List PyVal)
    (h : op ∉ ["QubitStateVector", "CNOT", "Rot", "RX", "RY", "RZ",
      "PauliX", "PauliY", "PauliZ"]) :
    QulacsDevice.apply d op wires par =
      (some (Err.valueError ("Invalid operation \"" ++ op ++ "\"")), d) := by
  simp only [List.mem_cons, List.not_mem_nil, or_false, not_or] at h
  obtain ⟨h1, h2, h3, h4, h5, h6, h7, h8, h9⟩ := h
  simp [QulacsDevice.apply, h1, h2, h3, h4, h5, h6, h7, h8, h9]

theorem apply_unsupported_raises_witness :
    "Hadamard" ∉ ["QubitStateVector", "CNOT", "Rot", "RX", "RY", "RZ",
      "PauliX", "PauliY", "PauliZ"] ∧
    QulacsDevice.apply (QulacsDevice.init 1) "Hadamard" [0] [] =
      (some (Err.valueError ("Invalid operation \"" ++ "Hadamard" ++ "\"")),
       QulacsDevice.init 1) :=
  ⟨by decide, apply_unsupported_raises (QulacsDevice.init 1) "Hadamard" [0] [] (by decide)⟩

/-- C3: `apply` with the `QubitStateVector` directive raises `ValueError`
exactly when the supplied vector's length differs from `2^len(wires)`;
on a match the vector is loaded directly into the simulation state, the
gate sequence is untouched, and no gate is queued. -/
theorem apply_qsv_load (d : QulacsDevice) (wires : List Nat) (v : List KC)
    (rest : List PyVal) :
    QulacsDevice.apply d "QubitStateVector" wires (PyVal.vec v :: rest) =
      if v.length = 2 ^ wires.length then
        (none, { d with _state := fun i => v.getD i 0 })
      else
        (some (Err.valueError "State vector must be of length 2**wires."), d) := by
  by_cases h : v.length = 2 ^ wires.length <;>
    simp [QulacsDevice.apply, QulacsDevice.loadStateVector, h]

/-- C4: each of the eight supported non-load operation names appends
exactly one corresponding gate to the gate sequence (`addGate`), and
`addGate` leaves the simulation state's amplitude vector untouched. -/
theorem apply_supported_queues_one_gate (d : QulacsDevice) (w1 w2 : Nat) (a b c : ℚ) :
    QulacsDevice.apply d "CNOT" [w1, w2] [PyVal.num a, PyVal.num b, PyVal.num c] =
      (none, d.addGate (Gate.cnot w1 w2)) ∧
    QulacsDevice.apply d "Rot" [w1, w2] [PyVal.num a, PyVal.num b, PyVal.num c] =
      (none, d.addGate (Gate.u3 w1 a b c)) ∧
    QulacsDevice.apply d "RX" [w1, w2] [PyVal.num a, PyVal.num b, PyVal.num c] =
      (none, d.addGate (Gate.rx w1 a)) ∧
    QulacsDevice.apply d "RY" [w1, w2] [PyVal.num a, PyVal.num b, PyVal.num c] =
      (none, d.addGate (Gate.ry w1 a)) ∧
    QulacsDevice.apply d "RZ" [w1, w2] [PyVal.num a, PyVal.num b, PyVal.num c] =
      (none, d.addGate (Gate.rz w1 a)) ∧
    QulacsDevice.apply d "PauliX" [w1, w2] [PyVal.num a, PyVal.num b, PyVal.num c] =
      (none, d.addGate (Gate.x w1)) ∧
    QulacsDevice.apply d "PauliY" [w1, w2] [PyVal.num a, PyVal.num b, PyVal.num c] =
      (none, d.addGate (Gate.y w1)) ∧
    QulacsDevice.apply d "PauliZ" [w1, w2] [PyVal.num a, PyVal.num b, PyVal.num c] =
      (none, d.addGate (Gate.z w1)) ∧
    ∀ g : Gate, (d.addGate g)._state = d._state ∧
      (d.addGate g)._circuit = d._circuit ++ [g] :=
  ⟨rfl, rfl, rfl, rfl, rfl, rfl, rfl, rfl, fun _ => ⟨rfl, rfl⟩⟩

/-- C5: the `state` property reads the engine amplitude vector at the
bit-reversed index: the component at the index with binary expansion
`b_{n-1}...b_0` is the engine component at `b_0...b_{n-1}`. -/
theorem state_is_bit_reversal (d : QulacsDevice) (i : Nat) :
    d.state i =
      d._state (∑ k ∈ Finset.range d.num_wires, bitAt i k * 2 ^ (d.num_wires - 1 - k)) := by
  rw [state_eq_bitRev, bitRev_eq_sum d.num_wires i]

/-- C6: `expval` on `Hermitian` validates the caller-supplied matrix: a
"must be square" `ValueError` when the row count differs from the column
count, a "must be Hermitian" `ValueError` when the matrix is not `close`
(the `np.allclose` tolerance predicate) to its conjugate transpose, and
otherwise the matrix itself is the observable applied. -/
theorem expval_hermitian_validation (close : Mat → Mat → Bool) (d : QulacsDevice)
    (wires : List Nat) (M : Mat) (rest : List PyVal) :
    QulacsDevice.expval close d "Hermitian" wires (PyVal.mat M :: rest) =
      if M.length ≠ (M.headD []).length then
        Except.error (Err.valueError "Expectation must be a square matrix.")
      else if ¬ close M (conjTranspose M) then
        Except.error (Err.valueError "Expectation must be Hermitian.")
      else
        Except.ok
          (KC.realPart (innerProduct d.num_wires d._state (applyDense wires M d._state)),
           { d with _state := applyDense wires M d._state }) := by
  have hge : QulacsDevice._get_operator_matrix close "Hermitian" (PyVal.mat M :: rest) =
      (if M.length ≠ (M.headD []).length then
        Except.error (Err.valueError "Expectation must be a square matrix.")
      else if ¬ close M (conjTranspose M) then
        Except.error (Err.valueError "Expectation must be Hermitian.")
      else Except.ok M) := rfl
  unfold QulacsDevice.expval
  rw [hge]
  by_cases h1 : M.length ≠ (M.headD []).length
  · rw [if_pos h1, if_pos h1]
  · rw [if_neg h1, if_neg h1]
    by_cases h2 : ¬ close M (conjTranspose M)
    · rw [if_pos h2, if_pos h2]
    · rw [if_neg h2, if_neg h2]

/-- C7: reading `state` right after construction, and right after `reset`
regardless of prior history, yields the ground-state vector
`[1, 0, ..., 0]`. -/
theorem ground_after_init_and_reset :
    (∀ n i, i < 2 ^ n →
      (QulacsDevice.init n).state i = if i = 0 then 1 else 0) ∧
    (∀ (d : QulacsDevice) (i : Nat), i < 2 ^ d.num_wires →
      d.reset.state i = if i = 0 then 1 else 0) := by
  constructor
  · intro n i hi
    exact ground_state_read (QulacsDevice.init n) rfl i hi
  · intro d i hi
    exact ground_state_read d.reset rfl i hi

theorem ground_after_init_and_reset_witness :
    3 < 2 ^ 2 ∧
    ((QulacsDevice.init 2).state 3 = if (3 : Nat) = 0 then 1 else 0) ∧
    ((QulacsDevice.init 2).reset.state 3 = if (3 : Nat) = 0 then 1 else 0) :=
  ⟨by decide, ground_after_init_and_reset.1 2 3 (by decide),
   ground_after_init_and_reset.2 (QulacsDevice.init 2) 3 (by decide)⟩

/-- C8: loading a length-`2^k` vector into a `k`-wire adapter through the
`QubitStateVector` directive and then reading `state` returns the vector
transported through the bit-reversal reordering:
`state i = v (bitRev k i)`. -/
theorem qsv_roundtrip (d : QulacsDevice) (wires : List Nat) (v : List KC)
    (rest : List PyVal) (hd : d.num_wires = wires.length)
    (hv : v.length = 2 ^ wires.length) :
    QulacsDevice.apply d "QubitStateVector" wires (PyVal.vec v :: rest) =
      (none, { d with _state := fun j => v.getD j 0 }) ∧
    ∀ i, ({ d with _state := fun j => v.getD j 0 } : QulacsDevice).state i =
      v.getD (bitRev wires.length i) 0 := by
  constructor
  · simp [QulacsDevice.apply, QulacsDevice.loadStateVector, hv]
  · intro i
    rw [state_eq_bitRev]
    show v.getD (bitRev d.num_wires i) 0 = v.getD (bitRev wires.length i) 0
    rw [hd]

theorem qsv_roundtrip_witness :
    (QulacsDevice.init 1).num_wires = [0].length ∧
    ([(0 : KC), 1].length = 2 ^ [0].length) ∧
    (QulacsDevice.apply (QulacsDevice.init 1) "QubitStateVector" [0]
        [PyVal.vec [0, 1]] =
      (none, { QulacsDevice.init 1 with _state := fun j => [(0 : KC), 1].getD j 0 }) ∧
    ∀ i, ({ QulacsDevice.init 1 with
        _state := fun j => [(0 : KC), 1].getD j 0 } : QulacsDevice).state i =
      [(0 : KC), 1].getD (bitRev [0].length i) 0) :=
  ⟨rfl, rfl,
   qsv_roundtrip (QulacsDevice.init 1) [0] [0, 1] [] rfl rfl⟩

/-- C9: `pre_measure` applies every queued gate to the simulation state in
insertion order (a left fold over the gate sequence, with a snoc law
making the order explicit), and it is not idempotent: on a one-wire device
with a queued `X` gate, committing twice equals applying the sequence
twice and yields a state different from a single commit. -/
theorem commit_order_and_nonidempotence :
    (∀ (t : Trig) (d : QulacsDevice),
      d.pre_measure t = { d with _state := applyGates t d._circuit d._state }) ∧
    (∀ (t : Trig) (v : Nat → KC) (gs : List Gate) (g : Gate),
      applyGates t (gs ++ [g]) v = Gate.applyTo t g (applyGates t gs v)) ∧
    ((xQueuedDevice.pre_measure trivTrig).pre_measure trivTrig)._state =
      applyGates trivTrig (xQueuedDevice._circuit ++ xQueuedDevice._circuit)
        xQueuedDevice._state ∧
    ((xQueuedDevice.pre_measure trivTrig).pre_measure trivTrig)._state 0 = 1 ∧
    (xQueuedDevice.pre_measure trivTrig)._state 0 = 0 := by
  refine ⟨fun t d => rfl, ?_, rfl, ?_, ?_⟩
  · intro t v gs g
    simp [applyGates, List.foldl_append]
  · show applySingle X_matrix 0 (applySingle X_matrix 0 groundState) 0 = 1
    simp [applySingle, matEntry, X_matrix, bitAt, setBitTo, groundState,
      KC.zero_def, KC.one_def, KC.add_mk, KC.mul_mk]
  · show applySingle X_matrix 0 groundState 0 = 0
    simp [applySingle, matEntry, X_matrix, bitAt, setBitTo, groundState,
      KC.zero_def, KC.one_def, KC.add_mk, KC.mul_mk]

/-- C10: the resolvable observable names are exactly `PauliX`, `PauliY`,
`PauliZ`, `Hadamard`, `Hermitian`; `Hadamard` is absent from the declared
`observables` attribute yet `expval` on it succeeds with the fixed
`H_matrix`; any name outside the five makes `expval` raise the raw
dictionary `KeyError`, a distinct exception from the `ValueError`s of the
spec's taxonomy. -/
theorem observable_map_domain :
    (∀ name, (QulacsDevice._observable_map name).isSome = true ↔
      name ∈ ["PauliX", "PauliY", "PauliZ", "Hadamard", "Hermitian"]) ∧
    "Hadamard" ∉ QulacsDevice.observables ∧
    (∀ (close : Mat → Mat → Bool) (d : QulacsDevice) (wires : List Nat)
      (par : List PyVal),
      QulacsDevice.expval close d "Hadamard" wires par =
        Except.ok
          (KC.realPart (innerProduct d.num_wires d._state (applyDense wires H_matrix d._state)),
           { d with _state := applyDense wires H_matrix d._state })) ∧
    (∀ (close : Mat → Mat → Bool) (d : QulacsDevice) (wires : List Nat)
      (par : List PyVal) (name : String),
      name ∉ ["PauliX", "PauliY", "PauliZ", "Hadamard", "Hermitian"] →
      QulacsDevice.expval close d name wires par = Except.error (Err.keyError name)) ∧
    (∀ key msg, Err.keyError key ≠ Err.valueError msg) := by
  refine ⟨?_, by decide, ?_, ?_, fun key msg h => Err.noConfusion h⟩
  · intro name
    unfold QulacsDevice._observable_map
    split_ifs with h1 h2 h3 h4 h5 <;> simp_all
  · intro close d wires par
    rfl
  · intro close d wires par name h
    have hnone : QulacsDevice._observable_map name = none := by
      unfold QulacsDevice._observable_map
      split_ifs with h1 h2 h3 h4 h5 <;> simp_all
    unfold QulacsDevice.expval QulacsDevice._get_operator_matrix
    rw [hnone]

theorem observable_map_domain_witness :
    ("Foo" ∉ ["PauliX", "PauliY", "PauliZ", "Hadamard", "Hermitian"]) ∧
    QulacsDevice.expval close0 (QulacsDevice.init 1) "Foo" [0] [] =
      Except.error (Err.keyError "Foo") :=
  ⟨by decide,
   observable_map_domain.2.2.2.1 close0 (QulacsDevice.init 1) [0] [] "Foo" (by decide)⟩

end QulacsSpec
